import Mathlib

/-!
Verification of the vcpkg repository manager (`hifi_vcpkg.py`).

The source is a single Python class `VcpkgRepo` that manages a per-project
installation of the vcpkg dependency manager: it derives an identity tag from
a content hash of a ports overlay directory plus a format version, decides
staleness against a persisted tag file, and performs a clean-and-rebuild
cycle when stale.

We shallowly embed the program over an explicit filesystem state: a
filesystem is an association list from paths (lists of components) to nodes
(files with string content, directories, or symbolic links).  Lookup finds
the first matching entry, so consing an entry models an overwrite.  The
filesystem also carries a list of `locked` paths, which model entries whose
removal fails: `shutil.rmtree` with `ignore_errors=True` silently leaves
them in place, while without `ignore_errors` it would raise.

External collaborators (`hifi_utils.hashFolder`, `hifi_utils.downloadAndExtract`,
`hifi_utils.executeSubprocess`, `hifi_android` package tables) are not part of
the source; they are modelled from the spec as explicit parameters carried in
an `ExtEnv` environment record: the fetch of an archive either fails (integrity
or network failure, `Option.none`) or yields the list of extracted entries.
-/

/-- A filesystem path, as a list of components (the embedding of the strings
produced by `os.path.join`). -/
abbrev FsPath := List String

/-- A filesystem node: a regular file with its full text content, a
directory, or a symbolic link to a target path. -/
inductive Node where
  | file : String → Node
  | dir : Node
  | symlink : FsPath → Node
deriving DecidableEq

/-- First-match lookup in an association list of filesystem entries. -/
def lookupKey (l : List (FsPath × Node)) (k : FsPath) : Option Node :=
  match l with
  | [] => none
  | e :: es => if e.1 = k then some e.2 else lookupKey es k

/-- A filesystem state: entries (first match wins) plus the set of paths
whose removal fails (modelling locked / undeletable objects, which
`shutil.rmtree(..., ignore_errors=True)` silently skips). -/
structure FS where
  entries : List (FsPath × Node)
  locked : List FsPath
deriving DecidableEq

namespace FS

/-- Look up the node at a path. -/
def lookup (fs : FS) (p : FsPath) : Option Node :=
  lookupKey fs.entries p

/-- `os.path.isfile` (symbolic-link resolution is not modelled; in this
program links only ever occur at the ports path, which is never tested with
`isfile`). -/
def isfile (fs : FS) (p : FsPath) : Bool :=
  match fs.lookup p with
  | some (Node.file _) => true
  | _ => false

/-- `os.path.isdir`. -/
def isdir (fs : FS) (p : FsPath) : Bool :=
  match fs.lookup p with
  | some Node.dir => true
  | _ => false

/-- `os.path.islink`. -/
def islink (fs : FS) (p : FsPath) : Bool :=
  match fs.lookup p with
  | some (Node.symlink _) => true
  | _ => false

/-- Read a file's entire content, as `open(p).read()` does. -/
def readFile (fs : FS) (p : FsPath) : Option String :=
  match fs.lookup p with
  | some (Node.file c) => some c
  | _ => none

/-- `open(p, 'w').write(c)`: overwrite the file at `p` with content `c`
(the new entry shadows any previous one). -/
def writeFile (fs : FS) (p : FsPath) (c : String) : FS :=
  { fs with entries := (p, Node.file c) :: fs.entries }

/-- `os.unlink p`: remove the object at exactly path `p` (a link's target is
untouched). -/
def unlink (fs : FS) (p : FsPath) : FS :=
  { fs with entries := fs.entries.filter (fun e => !(decide (e.1 = p))) }

end FS

/-- The subtree of entries rooted at `p`: `p` itself and everything below. -/
def underTree (p q : FsPath) : Bool :=
  p.isPrefixOf q

/-- Result of `shutil.rmtree(p, ignore_errors=True)`: every entry in the
subtree rooted at `p` is removed, except locked entries, which silently
survive. -/
def rmtreeResult (p : FsPath) (fs : FS) : FS :=
  { fs with entries :=
      fs.entries.filter (fun e => !(underTree p e.1) || decide (e.1 ∈ fs.locked)) }

/-- `shutil.rmtree p`: with `ignoreErrors` set, always succeeds, leaving
locked entries behind; without it, raises when some entry in the subtree is
locked. -/
def shutil_rmtree (p : FsPath) (ignoreErrors : Bool) (fs : FS) : Except String FS :=
  if ignoreErrors then Except.ok (rmtreeResult p fs)
  else if fs.entries.any (fun e => underTree p e.1 && decide (e.1 ∈ fs.locked)) then
    Except.error "OSError during rmtree"
  else Except.ok (rmtreeResult p fs)

/-- The entries of the subtree rooted at `src` (excluding `src` itself),
re-rooted at `dst`.  Used by `copytree` and nowhere else. -/
def relocate (src dst : FsPath) : List (FsPath × Node) → List (FsPath × Node)
  | [] => []
  | e :: es =>
    if underTree src e.1 && !(decide (e.1 = src)) then
      (dst ++ e.1.drop src.length, e.2) :: relocate src dst es
    else relocate src dst es

/-- `shutil.copytree src dst`: lists the source first, so a missing (or
non-directory) source raises (`FileNotFoundError` / `NotADirectoryError`)
before anything is created; then fails if anything exists at `dst`
(`FileExistsError`); otherwise creates `dst` as a directory and copies the
source subtree below it (intermediate directories are created by
`os.makedirs` inside `copytree`; our path model needs no intermediates
beyond the entries themselves).  `copytreeFS` is the state produced by a
successful copy. -/
def copytreeFS (src dst : FsPath) (fs : FS) : FS :=
  { fs with entries := (dst, Node.dir) :: relocate src dst fs.entries ++ fs.entries }

def copytree (src dst : FsPath) (fs : FS) : Except String FS :=
  if fs.isdir src then
    if fs.lookup dst = none then Except.ok (copytreeFS src dst fs)
    else Except.error "FileExistsError during copytree"
  else Except.error "FileNotFoundError during copytree: missing source"

/-- The nonempty prefixes of a path (targets that `os.makedirs` creates). -/
def pathPrefixes (p : FsPath) : List FsPath :=
  (List.range p.length).map (fun i => p.take (i + 1))

/-- `os.makedirs p`: create a directory at every missing prefix of `p`. -/
def makedirs (p : FsPath) (fs : FS) : FS :=
  let missing := (pathPrefixes p).filter (fun q => (fs.lookup q).isNone)
  { fs with entries := missing.map (fun q => (q, Node.dir)) ++ fs.entries }

/-- Modelled from the spec: extraction half of the external collaborator
`downloadAndVerifyExtract(url, destDir, expectedHash?)` (the missing
`hifi_utils.downloadAndExtract`): place a verified archive's entries
(relative paths) under `dest` and ensure the destination directory exists. -/
def extractInto (dest : FsPath) (arch : List (FsPath × Node)) (fs : FS) : FS :=
  { fs with entries :=
      (dest, Node.dir) :: arch.map (fun e => (dest ++ e.1, e.2)) ++ fs.entries }

/-- Modelled from the spec: fetch-and-verify half of `downloadAndExtract`:
`none` models a failed fetch or a digest mismatch (the bootstrap aborts,
nothing is extracted), `some arch` models a verified archive extracted under
`dest`. -/
def runDownloadAndExtract (fetched : Option (List (FsPath × Node))) (dest : FsPath)
    (fs : FS) : Except String FS :=
  match fetched with
  | none => Except.error "downloadAndExtract failed: hash mismatch or network error"
  | some arch => Except.ok (extractInto dest arch fs)

/-! ### String helpers: tag derivation and Python `str.format` -/

/-- The first eight characters of the overlay directory hash:
`hifi_utils.hashFolder(self.sourcePortsPath)[:8]` (Python slices by
character). -/
def computeId (folderHash : String) : String :=
  String.mk (folderHash.data.take 8)

/-- The tag string `"{}_{}".format(self.id, self.version)`. -/
def mkTagContents (id : String) (version : Nat) : String :=
  id ++ "_" ++ toString version

/-- Python `str.format` positional substitution, on character lists: each
occurrence of the placeholder pair is replaced by the next argument
(substituted text is not rescanned).  With more placeholders than arguments
Python raises `IndexError`; that situation never arises in the program's
templates, and the model then emits the placeholder verbatim. -/
def pyFormatL : List Char → List String → List Char
  | [], _ => []
  | [c], _ => [c]
  | c :: d :: rest, args =>
    if c = '\x7b' ∧ d = '\x7d' then
      match args with
      | a :: args2 => a.data ++ pyFormatL rest args2
      | [] => c :: d :: pyFormatL rest []
    else c :: pyFormatL (d :: rest) args

/-- Python `str.format` on strings. -/
def pyFormat (t : String) (args : List String) : String :=
  String.mk (pyFormatL t.data args)

/-- The final `.replace('\\', '/')` of `writeConfig`: normalize every
backslash to a forward slash. -/
def normalizeSlashes (s : String) : String :=
  String.mk (s.data.map (fun c => if c = '\\' then '/' else c))

/-- Render a component path to the string `os.path.join` would produce, with
the platform separator. -/
def pathToString (sep : String) (p : FsPath) : String :=
  String.intercalate sep p

/-- A format placeholder pair. -/
def ph : String := "\x7b\x7d"

def tLit1 : String := "\nget_filename_component(CMAKE_TOOLCHAIN_FILE \""

def tLit2 : String := "\" ABSOLUTE CACHE)\nget_filename_component(CMAKE_TOOLCHAIN_FILE_UNCACHED \""

def tLit3 : String := "\" ABSOLUTE)\nset(VCPKG_INSTALL_ROOT \""

def tLit4 : String := "\")\nset(VCPKG_TOOLS_DIR \""

def tLit5 : String := "\")\n"

/-- `VcpkgRepo.CMAKE_TEMPLATE`, assembled from its brace-free literal pieces
and the four placeholders. -/
def CMAKE_TEMPLATE : String :=
  tLit1 ++ ph ++ tLit2 ++ ph ++ tLit3 ++ ph ++ tLit4 ++ ph ++ tLit5

/-- `VcpkgRepo.CMAKE_TEMPLATE_NON_ANDROID` (the toolchain-moved guard). -/
def CMAKE_TEMPLATE_NON_ANDROID : String :=
  "\n# If the cached cmake toolchain path is different from the computed one, exit\nif(NOT (CMAKE_TOOLCHAIN_FILE_UNCACHED STREQUAL CMAKE_TOOLCHAIN_FILE))\n    message(FATAL_ERROR \"CMAKE_TOOLCHAIN_FILE has changed, please wipe the build directory and rerun cmake\")\nendif()\n"

def aLit1 : String := "set(HIFI_ANDROID_PRECOMPILED \""

def qLit1 : String := "set(QT_CMAKE_PREFIX_PATH \""

def aLit2 : String := "\")\n"

/-- The android precompiled-path clause template. -/
def SET_PRECOMPILED : String := aLit1 ++ ph ++ aLit2

/-- The android Qt prefix clause template. -/
def SET_QT_PREFIX : String := qLit1 ++ ph ++ aLit2

/-! ### The repository manager -/

/-- The CLI argument record consumed by `VcpkgRepo.__init__`. -/
structure Args where
  ports_path : FsPath
  build_root : FsPath
  vcpkg_root : Option FsPath
  android : Bool
  force_build : Bool
  force_bootstrap : Bool
deriving DecidableEq

/-- Modelled from the spec: the external environment of the constructor —
the platform name, the overlay-hash result of the missing
`hifi_utils.hashFolder`, the two environment variables, the platform default
base path, and the fetch outcomes for each archive the program may download
(`none` = network failure or digest mismatch). -/
structure ExtEnv where
  system : String
  folderHash : String
  baseEnv : Option FsPath
  androidEnv : Option FsPath
  defaultBasePath : FsPath
  vcpkgArchive : Option (List (FsPath × Node))
  androidBaseArchive : Option (List (FsPath × Node))
  androidPackages : List (String × Option (List (FsPath × Node)))
  qtArchive : Option (List (FsPath × Node))
deriving DecidableEq

/-- The fields `VcpkgRepo.__init__` computes and stores on `self`. -/
structure VcpkgRepo where
  args : Args
  ext : ExtEnv
  id : String
  configFilePath : FsPath
  path : FsPath
  lockFile : FsPath
  tagFile : FsPath
  version : Nat
  tagContents : String
  exe : FsPath
  hostTriplet : String
  triplet : String
  androidPackagePath : FsPath
  sep : String
deriving DecidableEq

/-- `VcpkgRepo.__init__`: compute the identity, the managed path (creating
the base and lock directories when missing), the tag file path and contents,
and the platform-dependent fields.  The download URLs and expected hashes
select the fetch outcomes already carried in `ExtEnv`. -/
def mkRepo (args : Args) (ext : ExtEnv) (fs : FS) : VcpkgRepo × FS :=
  let id := computeId ext.folderHash
  let configFilePath := args.build_root ++ ["vcpkg.cmake"]
  let pf :=
    match args.vcpkg_root with
    | some r => (r, fs)
    | none =>
      let basePath := ext.baseEnv.getD ext.defaultBasePath
      let basePath := if args.android then basePath ++ ["android"] else basePath
      let fs := if !(fs.isdir basePath) then makedirs basePath fs else fs
      (basePath ++ [id], fs)
  let path := pf.1
  let fs := pf.2
  let lockDir := path.dropLast
  let lockName := (path.getLastD "") ++ ".lock"
  let fs := if !(fs.isdir lockDir) then makedirs lockDir fs else fs
  let lockFile := lockDir ++ [lockName]
  let tagFile := path ++ [".id"]
  let version := 1
  let tagContents := mkTagContents id version
  let exe := if ext.system = "Windows" then path ++ ["vcpkg.exe"] else path ++ ["vcpkg"]
  let hostTriplet :=
    if ext.system = "Windows" then "x64-windows"
    else if ext.system = "Darwin" then "x64-osx"
    else "x64-linux"
  let sep := if ext.system = "Windows" then "\\" else "/"
  let triplet := if args.android then "arm64-android" else hostTriplet
  let androidPackagePath := ext.androidEnv.getD (path ++ ["android"])
  ({ args := args, ext := ext, id := id, configFilePath := configFilePath,
     path := path, lockFile := lockFile, tagFile := tagFile, version := version,
     tagContents := tagContents, exe := exe, hostTriplet := hostTriplet,
     triplet := triplet, androidPackagePath := androidPackagePath, sep := sep },
   fs)

namespace VcpkgRepo

/-- `VcpkgRepo.upToDate`: user-supplied root is always current; a forced
build is never current; otherwise the executable and the tag file must exist
and the tag file's whole content must equal the computed tag. -/
def upToDate (r : VcpkgRepo) (fs : FS) : Bool :=
  if r.args.vcpkg_root.isSome then true
  else if r.args.force_build then false
  else if !(fs.isfile r.exe) then false
  else if !(fs.isfile r.tagFile) then false
  else decide (fs.readFile r.tagFile = some r.tagContents)

/-- `VcpkgRepo.clean`: if the installation root is a directory, remove it
with `shutil.rmtree(self.path, ignore_errors=True)`. -/
def clean (r : VcpkgRepo) (fs : FS) : Except String FS :=
  if fs.isdir r.path then shutil_rmtree r.path true fs else Except.ok fs

/-- The pure value `clean` always succeeds with (see `clean_eq_ok`). -/
def cleanFS (r : VcpkgRepo) (fs : FS) : FS :=
  if fs.isdir r.path then rmtreeResult r.path fs else fs

/-- The `ports` subdirectory of the installation root. -/
def portsPath (r : VcpkgRepo) : FsPath := r.path ++ ["ports"]

/-- Lines 145–151 of `bootstrap`: replace the ports subdirectory with a
fresh copy of the overlay — unlink a symbolic link, recursively remove a
real directory, then `shutil.copytree` the overlay in.
`replacePortsStage` is the filesystem just before the copy step (after the
conditional unlink and the conditional recursive removal). -/
def replacePortsStage (r : VcpkgRepo) (fs : FS) : FS :=
  let pp := r.portsPath
  let fs1 := if fs.islink pp then fs.unlink pp else fs
  if fs1.isdir pp then rmtreeResult pp fs1 else fs1

/-- Lines 145–151 of `bootstrap` (see the doc of `replacePortsStage` for the
two removal steps preceding the copy). -/
def replacePorts (r : VcpkgRepo) (fs : FS) : Except String FS :=
  let pp := r.portsPath
  let fs1 := if fs.islink pp then fs.unlink pp else fs
  let step : Except String FS :=
    if fs1.isdir pp then shutil_rmtree pp true fs1 else Except.ok fs1
  match step with
  | Except.error e => Except.error e
  | Except.ok fs2 => copytree r.args.ports_path pp fs2

end VcpkgRepo

/-- Which work a `bootstrap` run performed: whether it went past the
up-to-date check (and so cleaned), whether the base archive was downloaded
and extracted, and whether the ports overlay copy completed. -/
structure BootTrace where
  cleaned : Bool
  downloaded : Bool
  copiedPorts : Bool
deriving DecidableEq

namespace VcpkgRepo

/-- `VcpkgRepo.bootstrap`: no-op when up to date; otherwise clean, decide
whether the base binary needs acquisition (`downloadDecision`: force flag,
or missing executable, or missing `.vcpkg-root` marker, evaluated on the
cleaned state), fetch and extract it if so, then replace the ports directory
(the body after the clean is `bootstrapAfterClean`).  The returned
`Option String` is the raised exception, if any; the returned state is the
filesystem at that point (an exception does not roll the filesystem back). -/
def downloadDecision (r : VcpkgRepo) (fs1 : FS) : Bool :=
  r.args.force_bootstrap || !(fs1.isfile r.exe) || !(fs1.isfile (r.path ++ [".vcpkg-root"]))

def bootstrapAfterClean (r : VcpkgRepo) (fs1 : FS) : FS × BootTrace × Option String :=
  if r.downloadDecision fs1 then
    match runDownloadAndExtract r.ext.vcpkgArchive r.path fs1 with
    | Except.error e => (fs1, ⟨true, false, false⟩, some e)
    | Except.ok fs2 =>
      match r.replacePorts fs2 with
      | Except.error e => (fs2, ⟨true, true, false⟩, some e)
      | Except.ok fs3 => (fs3, ⟨true, true, true⟩, none)
  else
    match r.replacePorts fs1 with
    | Except.error e => (fs1, ⟨true, false, false⟩, some e)
    | Except.ok fs3 => (fs3, ⟨true, false, true⟩, none)

def bootstrap (r : VcpkgRepo) (fs : FS) : FS × BootTrace × Option String :=
  if r.upToDate fs then (fs, ⟨false, false, false⟩, none)
  else
    match r.clean fs with
    | Except.error e => (fs, ⟨true, false, false⟩, some e)
    | Except.ok fs1 => r.bootstrapAfterClean fs1

/-- Modelled from the spec: `runProcess(commandVector, cwd)` — invoke the
external tool binary; the spec gives it no filesystem contract, so its
effect on the modelled filesystem is identity (`VcpkgRepo.run` builds the
command vector and delegates to it). -/
def run (r : VcpkgRepo) (commands : List String) (fs : FS) : FS :=
  let actualCommands := [pathToString r.sep r.exe, "--vcpkg-root", pathToString r.sep r.path] ++ commands
  let _ := actualCommands
  fs

/-- `VcpkgRepo.installQt`: download the Qt archive into `installed` when the
`hifi-qt5` directory is missing. -/
def installQt (r : VcpkgRepo) (fs : FS) : Except String FS :=
  if !(fs.isdir (r.path ++ ["installed", "hifi-qt5"])) then
    runDownloadAndExtract r.ext.qtArchive (r.path ++ ["installed"]) fs
  else Except.ok fs

end VcpkgRepo

/-- The per-package loop of `setupAndroidDependencies`: skip a package whose
destination directory exists, otherwise download and extract it. -/
def installAndroidPackages (r : VcpkgRepo) :
    List (String × Option (List (FsPath × Node))) → FS → Except String FS
  | [], fs => Except.ok fs
  | (name, fetched) :: rest, fs =>
    let dest := r.androidPackagePath ++ [name]
    if fs.isdir dest then installAndroidPackages r rest fs
    else
      match runDownloadAndExtract fetched dest fs with
      | Except.error e => Except.error e
      | Except.ok fs2 => installAndroidPackages r rest fs2

namespace VcpkgRepo

/-- `VcpkgRepo.setupAndroidDependencies`: fetch the prebuilt arm64-android
archive when missing, then the per-package archives. -/
def setupAndroidDependencies (r : VcpkgRepo) (fs : FS) : Except String FS :=
  let step1 : Except String FS :=
    if !(fs.isdir (r.path ++ ["installed", "arm64-android"])) then
      runDownloadAndExtract r.ext.androidBaseArchive (r.path ++ ["installed"]) fs
    else Except.ok fs
  match step1 with
  | Except.error e => Except.error e
  | Except.ok fs => installAndroidPackages r r.ext.androidPackages fs

/-- `VcpkgRepo.setupDependencies`: android binaries when targeting android,
host tools always, client deps and Qt when not targeting android. -/
def setupDependencies (r : VcpkgRepo) (fs : FS) : Except String FS :=
  let step1 : Except String FS :=
    if r.args.android then r.setupAndroidDependencies fs else Except.ok fs
  match step1 with
  | Except.error e => Except.error e
  | Except.ok fs =>
    let fs := r.run ["install", "--triplet", r.hostTriplet, "hifi-host-tools"] fs
    let fs :=
      if !r.args.android then r.run ["install", "--triplet", r.triplet, "hifi-client-deps"] fs
      else fs
    if !r.args.android then r.installQt fs else Except.ok fs

/-- `VcpkgRepo.writeTag`: overwrite the tag file with the computed tag. -/
def writeTag (r : VcpkgRepo) (fs : FS) : FS :=
  fs.writeFile r.tagFile r.tagContents

/-- The toolchain script path string (`os.path.join(self.path,
'scripts/buildsystems/vcpkg.cmake')`). -/
def cmakeScriptStr (r : VcpkgRepo) : String :=
  pathToString r.sep (r.path ++ ["scripts/buildsystems/vcpkg.cmake"])

/-- The install root string for the target triplet. -/
def installPathStr (r : VcpkgRepo) : String :=
  pathToString r.sep (r.path ++ ["installed", r.triplet])

/-- The tools directory string for the host triplet. -/
def toolsPathStr (r : VcpkgRepo) : String :=
  pathToString r.sep (r.path ++ ["installed", r.hostTriplet, "tools"])

/-- The android precompiled path string (`os.path.realpath` resolves
symbolic links, which the path model does not represent; it is rendered
directly). -/
def precompiledStr (r : VcpkgRepo) : String :=
  pathToString r.sep r.androidPackagePath

/-- The android Qt cmake prefix string. -/
def qtCmakePrefixStr (r : VcpkgRepo) : String :=
  pathToString r.sep (r.androidPackagePath ++ ["qt/lib/cmake"])

/-- The template assembled by `writeConfig` before formatting: the base
template plus either the non-android toolchain-moved guard or the android
clauses (which are formatted with their path at append time, before the main
format call — exactly as the source does). -/
def cmakeTemplate (r : VcpkgRepo) : String :=
  if !r.args.android then CMAKE_TEMPLATE ++ CMAKE_TEMPLATE_NON_ANDROID
  else
    CMAKE_TEMPLATE ++ pyFormat SET_PRECOMPILED [r.precompiledStr]
      ++ pyFormat SET_QT_PREFIX [r.qtCmakePrefixStr]

/-- The rendered configuration text: the assembled template formatted with
the toolchain script path (twice), the install root and the tools directory,
then backslash-normalized. -/
def configText (r : VcpkgRepo) : String :=
  normalizeSlashes
    (pyFormat r.cmakeTemplate [r.cmakeScriptStr, r.cmakeScriptStr, r.installPathStr, r.toolsPathStr])

/-- `VcpkgRepo.writeConfig`: write the rendered configuration to the config
file path. -/
def writeConfig (r : VcpkgRepo) (fs : FS) : FS :=
  fs.writeFile r.configFilePath r.configText

end VcpkgRepo

/-! ### Concrete fixtures used by closed instances of the theorems -/

/-- A concrete argument record: managed root, non-android, no force flags. -/
def sampleArgs : Args :=
  { ports_path := ["src", "ports"], build_root := ["build"], vcpkg_root := none,
    android := false, force_build := false, force_bootstrap := false }

/-- A concrete external environment with a healthy vcpkg archive. -/
def sampleEnv : ExtEnv :=
  { system := "Linux", folderHash := "aaaabbbbcccc", baseEnv := some ["base"],
    androidEnv := none, defaultBasePath := ["tmp", "hifi", "vcpkg"],
    vcpkgArchive := some
      [(["vcpkg"], Node.file "exe"), ([".vcpkg-root"], Node.file ""), (["scripts"], Node.dir)],
    androidBaseArchive := none, androidPackages := [], qtArchive := none }

/-- The same environment with the vcpkg fetch failing its integrity check. -/
def sampleEnvBadFetch : ExtEnv := { sampleEnv with vcpkgArchive := none }

/-- A concrete starting filesystem holding only the overlay directory. -/
def sampleFS : FS :=
  { entries := [(["src"], Node.dir), (["src", "ports"], Node.dir),
                (["src", "ports", "portfile"], Node.file "x")],
    locked := [] }

/-- The constructed repository over the sample inputs. -/
def sampleRepo : VcpkgRepo := (mkRepo sampleArgs sampleEnv sampleFS).1

/-- The filesystem after construction. -/
def sampleFS1 : FS := (mkRepo sampleArgs sampleEnv sampleFS).2

/-- The filesystem after a first (working) bootstrap run. -/
def sampleBootFS : FS := (sampleRepo.bootstrap sampleFS1).1

/-- The repository over the failing-fetch environment. -/
def sampleRepoBad : VcpkgRepo := (mkRepo sampleArgs sampleEnvBadFetch sampleFS).1

/-- Arguments with an explicitly user-supplied installation root. -/
def sampleArgsRoot : Args := { sampleArgs with vcpkg_root := some ["root"] }

/-- The repository over the user-supplied root. -/
def sampleRepoRoot : VcpkgRepo := (mkRepo sampleArgsRoot sampleEnv sampleFS).1

/-- A filesystem whose installation root contains a locked (undeletable)
entry, to exercise best-effort removal. -/
def lockedFS : FS :=
  { entries := [(["root"], Node.dir), (["root", "stuck"], Node.file "s"),
                (["root", "a"], Node.file "x")],
    locked := [["root", "stuck"]] }

/-- A stale managed installation: root directory present with an old tag. -/
def sampleStaleFS : FS :=
  { entries := [(["base"], Node.dir), (["base", "aaaabbbb"], Node.dir),
                (["base", "aaaabbbb", ".id"], Node.file "stale"),
                (["src"], Node.dir), (["src", "ports"], Node.dir),
                (["src", "ports", "portfile"], Node.file "x")],
    locked := [] }

/-- An installation whose ports directory holds a stale real directory. -/
def samplePortsFS : FS :=
  { entries := [(["base", "aaaabbbb", "ports"], Node.dir),
                (["base", "aaaabbbb", "ports", "old"], Node.file "o"),
                (["src", "ports"], Node.dir),
                (["src", "ports", "portfile"], Node.file "x")],
    locked := [] }

/-! ### Association-list lookup lemmas -/

theorem lookupKey_append_left {l1 l2 : List (FsPath × Node)} {k : FsPath} {v : Node}
    (h : lookupKey l1 k = some v) : lookupKey (l1 ++ l2) k = some v := by
  induction l1 with
  | nil => simp [lookupKey] at h
  | cons e es ih =>
    by_cases he : e.1 = k
    · simp only [lookupKey, he, if_true, List.cons_append] at h ⊢
      exact h
    · simp only [lookupKey, he, if_false, List.cons_append] at h ⊢
      exact ih h

theorem lookupKey_append_right {l1 l2 : List (FsPath × Node)} {k : FsPath}
    (h : lookupKey l1 k = none) : lookupKey (l1 ++ l2) k = lookupKey l2 k := by
  induction l1 with
  | nil => rfl
  | cons e es ih =>
    by_cases he : e.1 = k
    · simp [lookupKey, he] at h
    · simp only [lookupKey, he, if_false, List.cons_append] at h ⊢
      exact ih h

theorem lookupKey_eq_none {l : List (FsPath × Node)} {k : FsPath}
    (h : ∀ e ∈ l, e.1 ≠ k) : lookupKey l k = none := by
  induction l with
  | nil => simp [lookupKey]
  | cons e es ih =>
    have he : e.1 ≠ k := h e (by simp)
    simp only [lookupKey, he, if_false]
    exact ih (fun e' he' => h e' (by simp [he']))

theorem lookupKey_filter_eq {l : List (FsPath × Node)} {p : FsPath × Node → Bool} {k : FsPath}
    (h : ∀ e ∈ l, e.1 = k → p e = true) : lookupKey (l.filter p) k = lookupKey l k := by
  induction l with
  | nil => simp
  | cons e es ih =>
    by_cases he : e.1 = k
    · have hp : p e = true := h e (by simp) he
      simp [List.filter_cons, hp, lookupKey, he]
    · rcases hp : p e with _ | _
      · simp only [List.filter_cons, hp, Bool.false_eq_true, if_false, lookupKey, he]
        exact ih (fun e' he' hk => h e' (by simp [he']) hk)
      · simp only [List.filter_cons, hp, if_true, lookupKey, he, if_false]
        exact ih (fun e' he' hk => h e' (by simp [he']) hk)

theorem lookupKey_filter_none {l : List (FsPath × Node)} {p : FsPath × Node → Bool} {k : FsPath}
    (h : ∀ e ∈ l, e.1 = k → p e = false) : lookupKey (l.filter p) k = none := by
  induction l with
  | nil => simp [lookupKey]
  | cons e es ih =>
    rcases hp : p e with _ | _
    · simp only [List.filter_cons, hp, Bool.false_eq_true, if_false]
      exact ih (fun e' he' hk => h e' (by simp [he']) hk)
    · have he : e.1 ≠ k := by
        intro hk
        have := h e (by simp) hk
        simp [hp] at this
      simp only [List.filter_cons, hp, if_true, lookupKey, he, if_false]
      exact ih (fun e' he' hk => h e' (by simp [he']) hk)

/-! ### Subtree-prefix lemmas -/

theorem underTree_iff {p q : FsPath} : underTree p q = true ↔ ∃ t, p ++ t = q := by
  rw [underTree, List.isPrefixOf_iff_prefix]
  exact Iff.rfl

theorem underTree_append (p t : FsPath) : underTree p (p ++ t) = true :=
  underTree_iff.mpr ⟨t, rfl⟩

theorem underTree_refl (p : FsPath) : underTree p p = true := by
  simpa using underTree_append p []

theorem ne_of_not_underTree {p q : FsPath} (h : underTree p q = false) (t : FsPath) :
    p ++ t ≠ q := by
  intro hq
  rw [← hq, underTree_append] at h
  exact Bool.true_eq_false.mp h

theorem not_underTree_self {p q : FsPath} (h : underTree p q = false) : p ≠ q := by
  intro hq
  exact ne_of_not_underTree h [] (by simpa using hq)

theorem underTree_trans {p q s : FsPath} (h1 : underTree p q = true)
    (h2 : underTree q s = true) : underTree p s = true := by
  obtain ⟨t1, rfl⟩ := underTree_iff.mp h1
  obtain ⟨t2, rfl⟩ := underTree_iff.mp h2
  simpa [List.append_assoc] using underTree_append p (t1 ++ t2)

theorem underTree_prefix {p q : FsPath} (h : underTree p q = true) : p <+: q :=
  List.isPrefixOf_iff_prefix.mp h

theorem underTree_intro {p q : FsPath} (h : p <+: q) : underTree p q = true := by
  rw [underTree, List.isPrefixOf_iff_prefix]
  exact h

theorem not_under_of_disjoint {pp src : FsPath} (rel : FsPath)
    (h1 : underTree pp src = false) (h2 : underTree src pp = false) :
    underTree pp (src ++ rel) = false := by
  rcases hu : underTree pp (src ++ rel) with _ | _
  · rfl
  · exfalso
    have hps : pp <+: src ++ rel := underTree_prefix hu
    have hss : src <+: src ++ rel := ⟨rel, rfl⟩
    rcases Nat.le_total pp.length src.length with hle | hle
    · rw [underTree_intro (List.prefix_of_prefix_length_le hps hss hle)] at h1
      simp at h1
    · rw [underTree_intro (List.prefix_of_prefix_length_le hss hps hle)] at h2
      simp at h2

/-! ### Lemmas about the filesystem operations -/

theorem writeFile_lookup_self (fs : FS) (p : FsPath) (c : String) :
    (fs.writeFile p c).lookup p = some (Node.file c) := by
  simp [FS.writeFile, FS.lookup, lookupKey]

theorem writeFile_lookup_ne (fs : FS) (p : FsPath) (c : String) {q : FsPath} (h : q ≠ p) :
    (fs.writeFile p c).lookup q = fs.lookup q := by
  have hne : ¬ p = q := fun hq => h hq.symm
  simp [FS.writeFile, FS.lookup, lookupKey, hne]

theorem unlink_lookup_self (fs : FS) (p : FsPath) : (fs.unlink p).lookup p = none := by
  apply lookupKey_filter_none
  intro e _ hk
  simp [hk]

theorem unlink_lookup_ne (fs : FS) (p : FsPath) {q : FsPath} (h : q ≠ p) :
    (fs.unlink p).lookup q = fs.lookup q := by
  apply lookupKey_filter_eq
  intro e _ hk
  simp [hk, h]

theorem unlink_locked (fs : FS) (p : FsPath) : (fs.unlink p).locked = fs.locked := rfl

theorem rmtreeResult_lookup_not_under {p q : FsPath} (fs : FS)
    (h : underTree p q = false) : (rmtreeResult p fs).lookup q = fs.lookup q := by
  apply lookupKey_filter_eq
  intro e _ hk
  simp [hk, h]

theorem rmtreeResult_lookup_under {p q : FsPath} (fs : FS) (hl : fs.locked = [])
    (h : underTree p q = true) : (rmtreeResult p fs).lookup q = none := by
  apply lookupKey_filter_none
  intro e _ hk
  simp [hk, h, hl]

theorem rmtreeResult_locked (p : FsPath) (fs : FS) :
    (rmtreeResult p fs).locked = fs.locked := rfl

theorem makedirs_lookup_longer {p q : FsPath} (fs : FS) (h : p.length < q.length) :
    (makedirs p fs).lookup q = fs.lookup q := by
  show lookupKey (_ ++ fs.entries) q = lookupKey fs.entries q
  apply lookupKey_append_right
  apply lookupKey_eq_none
  intro e he
  simp only [List.mem_map, List.mem_filter] at he
  obtain ⟨x, ⟨hx, _⟩, rfl⟩ := he
  simp only [pathPrefixes, List.mem_map, List.mem_range] at hx
  obtain ⟨i, _, rfl⟩ := hx
  intro hq
  have hq' : p.take (i + 1) = q := hq
  have hlen : (p.take (i + 1)).length ≤ p.length := by simp [List.length_take]
  rw [hq'] at hlen
  omega

theorem makedirs_locked (p : FsPath) (fs : FS) : (makedirs p fs).locked = fs.locked := rfl

theorem extractInto_lookup_other {dest q : FsPath} (arch : List (FsPath × Node)) (fs : FS)
    (hq : q ≠ dest) (harch : ∀ e ∈ arch, dest ++ e.1 ≠ q) :
    (extractInto dest arch fs).lookup q = fs.lookup q := by
  have hne : ¬ dest = q := fun hd => hq hd.symm
  show lookupKey ((dest, Node.dir) :: (arch.map (fun e => (dest ++ e.1, e.2)) ++ fs.entries)) q
      = lookupKey fs.entries q
  simp only [lookupKey, hne, if_false]
  apply lookupKey_append_right
  apply lookupKey_eq_none
  intro e he
  simp only [List.mem_map] at he
  obtain ⟨x, hx, rfl⟩ := he
  exact harch x hx

theorem extractInto_lookup_not_under {dest q : FsPath} (arch : List (FsPath × Node)) (fs : FS)
    (h : underTree dest q = false) :
    (extractInto dest arch fs).lookup q = fs.lookup q := by
  apply extractInto_lookup_other
  · exact fun hq => not_underTree_self h hq.symm
  · exact fun e _ => ne_of_not_underTree h e.1

theorem extractInto_locked (dest : FsPath) (arch : List (FsPath × Node)) (fs : FS) :
    (extractInto dest arch fs).locked = fs.locked := rfl

theorem lookupKey_relocate_not_under {src dst q : FsPath} (l : List (FsPath × Node))
    (h : underTree dst q = false) : lookupKey (relocate src dst l) q = none := by
  induction l with
  | nil => rfl
  | cons a l ih =>
    rw [relocate]
    split
    · simp only [lookupKey]
      rw [if_neg]
      · exact ih
      · exact ne_of_not_underTree h _
    · exact ih

theorem lookupKey_relocate {src dst : FsPath} (l : List (FsPath × Node)) {rel : FsPath}
    (hrel : rel ≠ []) :
    lookupKey (relocate src dst l) (dst ++ rel) = lookupKey l (src ++ rel) := by
  induction l with
  | nil => rfl
  | cons a l ih =>
    rw [relocate]
    split
    · next hc =>
      simp only [Bool.and_eq_true, Bool.not_eq_true', decide_eq_false_iff_not] at hc
      obtain ⟨hpre, hne⟩ := hc
      obtain ⟨t, ht⟩ := underTree_iff.mp hpre
      have hdrop : a.1.drop src.length = t := by
        rw [← ht]
        simp
      by_cases hteq : t = rel
      · subst hteq
        simp [lookupKey, hdrop, ← ht]
      · have hk1 : ¬ dst ++ a.1.drop src.length = dst ++ rel := by
          rw [hdrop]
          intro hx
          exact hteq (List.append_cancel_left hx)
        have hk2 : ¬ a.1 = src ++ rel := by
          rw [← ht]
          intro hx
          exact hteq (List.append_cancel_left hx)
        simp only [lookupKey, hk1, hk2, if_false]
        exact ih
    · next hc =>
      have hne : ¬ a.1 = src ++ rel := by
        intro hk
        apply hc
        rw [hk]
        simp only [underTree_append, Bool.true_and, Bool.not_eq_true', decide_eq_false_iff_not]
        intro hx
        have hxe : src ++ rel = src ++ [] := by simpa using hx
        exact hrel (List.append_cancel_left hxe)
      simp only [lookupKey, hne, if_false]
      exact ih

theorem copytreeFS_lookup_dst (src dst : FsPath) (fs : FS) :
    (copytreeFS src dst fs).lookup dst = some Node.dir := by
  simp [copytreeFS, FS.lookup, lookupKey]

theorem copytreeFS_lookup_rel (src dst : FsPath) (fs : FS) {rel : FsPath} (hrel : rel ≠ [])
    (hempty : ∀ q, underTree dst q = true → q ≠ dst → fs.lookup q = none) :
    (copytreeFS src dst fs).lookup (dst ++ rel) = fs.lookup (src ++ rel) := by
  have hne : ¬ dst = dst ++ rel := by
    intro hx
    have hxe : dst ++ [] = dst ++ rel := by simpa using hx
    exact hrel (List.append_cancel_left hxe).symm
  show lookupKey ((dst, Node.dir) :: (relocate src dst fs.entries ++ fs.entries)) (dst ++ rel)
      = lookupKey fs.entries (src ++ rel)
  simp only [lookupKey, hne, if_false]
  rcases hfind : lookupKey fs.entries (src ++ rel) with _ | v
  · rw [lookupKey_append_right (by rw [lookupKey_relocate _ hrel, hfind])]
    exact hempty (dst ++ rel) (underTree_append dst rel) (fun hx => hne hx.symm)
  · exact lookupKey_append_left (by rw [lookupKey_relocate _ hrel, hfind])

theorem copytreeFS_lookup_other (src dst : FsPath) (fs : FS) {q : FsPath}
    (h : underTree dst q = false) : (copytreeFS src dst fs).lookup q = fs.lookup q := by
  have hne : ¬ dst = q := fun hx => not_underTree_self h hx
  show lookupKey ((dst, Node.dir) :: (relocate src dst fs.entries ++ fs.entries)) q
      = lookupKey fs.entries q
  simp only [lookupKey, hne, if_false]
  exact lookupKey_append_right (lookupKey_relocate_not_under _ h)

theorem copytreeFS_locked (src dst : FsPath) (fs : FS) :
    (copytreeFS src dst fs).locked = fs.locked := rfl

theorem copytree_of_none {src dst : FsPath} {fs : FS} (hsrc : fs.isdir src = true)
    (h : fs.lookup dst = none) :
    copytree src dst fs = Except.ok (copytreeFS src dst fs) := by
  simp [copytree, hsrc, h]

/-! ### Lemmas about clean -/

theorem clean_eq_ok (r : VcpkgRepo) (fs : FS) : r.clean fs = Except.ok (r.cleanFS fs) := by
  by_cases h : fs.isdir r.path
  · simp [VcpkgRepo.clean, VcpkgRepo.cleanFS, h, shutil_rmtree]
  · simp [VcpkgRepo.clean, VcpkgRepo.cleanFS, h]

theorem cleanFS_lookup_not_under (r : VcpkgRepo) (fs : FS) {q : FsPath}
    (h : underTree r.path q = false) : (r.cleanFS fs).lookup q = fs.lookup q := by
  unfold VcpkgRepo.cleanFS
  split
  · exact rmtreeResult_lookup_not_under fs h
  · rfl

theorem cleanFS_lookup_under (r : VcpkgRepo) (fs : FS) (hl : fs.locked = [])
    (hroot : fs.isdir r.path = true ∨ ∀ q', underTree r.path q' = true → fs.lookup q' = none)
    {q : FsPath} (h : underTree r.path q = true) : (r.cleanFS fs).lookup q = none := by
  unfold VcpkgRepo.cleanFS
  split
  · exact rmtreeResult_lookup_under fs hl h
  · next hdir =>
    rcases hroot with hd | hnone
    · exact absurd hd hdir
    · exact hnone q h

theorem cleanFS_locked (r : VcpkgRepo) (fs : FS) : (r.cleanFS fs).locked = fs.locked := by
  unfold VcpkgRepo.cleanFS
  split <;> rfl

theorem isfile_congr {fs1 fs2 : FS} {p : FsPath} (h : fs1.lookup p = fs2.lookup p) :
    fs1.isfile p = fs2.isfile p := by
  unfold FS.isfile
  rw [h]

theorem isdir_congr {fs1 fs2 : FS} {p : FsPath} (h : fs1.lookup p = fs2.lookup p) :
    fs1.isdir p = fs2.isdir p := by
  unfold FS.isdir
  rw [h]

theorem readFile_congr {fs1 fs2 : FS} {p : FsPath} (h : fs1.lookup p = fs2.lookup p) :
    fs1.readFile p = fs2.readFile p := by
  unfold FS.readFile
  rw [h]

/-! ### Lemmas about replacePorts -/

theorem replacePorts_eq (r : VcpkgRepo) (fs : FS) :
    r.replacePorts fs = copytree r.args.ports_path r.portsPath (r.replacePortsStage fs) := by
  unfold VcpkgRepo.replacePorts VcpkgRepo.replacePortsStage
  by_cases h1 : fs.islink r.portsPath
  · by_cases h2 : (fs.unlink r.portsPath).isdir r.portsPath
    · simp [h1, h2, shutil_rmtree]
    · simp [h1, h2]
  · by_cases h2 : fs.isdir r.portsPath
    · simp [h1, h2, shutil_rmtree]
    · simp [h1, h2]

theorem replacePortsStage_lookup_other (r : VcpkgRepo) (fs : FS) {q : FsPath}
    (hq : underTree r.portsPath q = false) :
    (r.replacePortsStage fs).lookup q = fs.lookup q := by
  have hne : q ≠ r.portsPath := fun hx => not_underTree_self hq hx.symm
  rcases h1 : fs.islink r.portsPath with _ | _
  · rcases h2 : fs.isdir r.portsPath with _ | _
    · simp only [VcpkgRepo.replacePortsStage, h1, Bool.false_eq_true, if_false, h2]
    · simp only [VcpkgRepo.replacePortsStage, h1, Bool.false_eq_true, if_false, h2, if_true]
      exact rmtreeResult_lookup_not_under _ hq
  · rcases h2 : (fs.unlink r.portsPath).isdir r.portsPath with _ | _
    · simp only [VcpkgRepo.replacePortsStage, h1, if_true, h2, Bool.false_eq_true, if_false]
      exact unlink_lookup_ne _ _ hne
    · simp only [VcpkgRepo.replacePortsStage, h1, if_true, h2]
      rw [rmtreeResult_lookup_not_under _ hq, unlink_lookup_ne _ _ hne]

theorem replacePortsStage_locked (r : VcpkgRepo) (fs : FS) :
    (r.replacePortsStage fs).locked = fs.locked := by
  unfold VcpkgRepo.replacePortsStage
  by_cases h1 : fs.islink r.portsPath
  · by_cases h2 : (fs.unlink r.portsPath).isdir r.portsPath
    · simp [h1, h2, rmtreeResult_locked, unlink_locked]
    · simp [h1, h2, unlink_locked]
  · by_cases h2 : fs.isdir r.portsPath
    · simp [h1, h2, rmtreeResult_locked]
    · simp [h1, h2]

theorem copytree_ok_lookup_other {src dst : FsPath} {fs fs' : FS}
    (hok : copytree src dst fs = Except.ok fs') {q : FsPath}
    (h : underTree dst q = false) : fs'.lookup q = fs.lookup q := by
  unfold copytree at hok
  split at hok
  · split at hok
    · injection hok with h'
      rw [← h']
      exact copytreeFS_lookup_other _ _ _ h
    · cases hok
  · cases hok

theorem copytree_ok_locked {src dst : FsPath} {fs fs' : FS}
    (hok : copytree src dst fs = Except.ok fs') : fs'.locked = fs.locked := by
  unfold copytree at hok
  split at hok
  · split at hok
    · injection hok with h'
      rw [← h']
      exact copytreeFS_locked _ _ _
    · cases hok
  · cases hok

theorem replacePorts_ok_preserve (r : VcpkgRepo) {fs fs' : FS}
    (hok : r.replacePorts fs = Except.ok fs') {q : FsPath}
    (hq : underTree r.portsPath q = false) : fs'.lookup q = fs.lookup q := by
  rw [replacePorts_eq] at hok
  rw [copytree_ok_lookup_other hok hq]
  exact replacePortsStage_lookup_other r fs hq

theorem replacePorts_ok_locked (r : VcpkgRepo) {fs fs' : FS}
    (hok : r.replacePorts fs = Except.ok fs') : fs'.locked = fs.locked := by
  rw [replacePorts_eq] at hok
  rw [copytree_ok_locked hok]
  exact replacePortsStage_locked r fs

/-- C5: in a bootstrap run that does work, the `ports` subdirectory is
replaced entirely with a fresh copy of the overlay: a symbolic link there is
unlinked (its target, lying outside the ports path, is untouched — last
conjunct), a real directory there is removed recursively, and the overlay is
then copied in as a new real directory, so afterwards the ports subtree
equals exactly the current overlay content and nothing outside it changed.
`hsrcdir` supplies the claim's scenario that the overlay directory exists
(on a missing overlay, `shutil.copytree` — and our `copytree` — raises
`FileNotFoundError` instead of copying). -/
theorem ports_overlay_replacement (r : VcpkgRepo) (fs : FS) (hl : fs.locked = [])
    (hsrcdir : fs.isdir r.args.ports_path = true)
    (hshape : fs.lookup r.portsPath = some Node.dir
        ∨ (∀ q, underTree r.portsPath q = true → fs.lookup q = none)
        ∨ (∃ t, fs.lookup r.portsPath = some (Node.symlink t) ∧
            ∀ q, underTree r.portsPath q = true → q ≠ r.portsPath → fs.lookup q = none))
    (hsrc1 : underTree r.portsPath r.args.ports_path = false)
    (hsrc2 : underTree r.args.ports_path r.portsPath = false) :
    r.replacePorts fs = Except.ok
      (copytreeFS r.args.ports_path r.portsPath (r.replacePortsStage fs)) ∧
    (copytreeFS r.args.ports_path r.portsPath (r.replacePortsStage fs)).lookup r.portsPath
        = some Node.dir ∧
    (∀ rel, rel ≠ [] →
      (copytreeFS r.args.ports_path r.portsPath (r.replacePortsStage fs)).lookup
          (r.portsPath ++ rel)
        = fs.lookup (r.args.ports_path ++ rel)) ∧
    (∀ q, underTree r.portsPath q = false →
      (copytreeFS r.args.ports_path r.portsPath (r.replacePortsStage fs)).lookup q
        = fs.lookup q) ∧
    (copytreeFS r.args.ports_path r.portsPath (r.replacePortsStage fs)).locked
        = fs.locked := by
  have hP2 : ∀ q, underTree r.portsPath q = false →
      (r.replacePortsStage fs).lookup q = fs.lookup q :=
    fun q hq => replacePortsStage_lookup_other r fs hq
  have hP1 : ∀ q, underTree r.portsPath q = true → (r.replacePortsStage fs).lookup q = none := by
    rcases hshape with hdir | hnone | ⟨t, hpp, hrest⟩
    · have hlink : fs.islink r.portsPath = false := by simp [FS.islink, hdir]
      have hdir' : fs.isdir r.portsPath = true := by simp [FS.isdir, hdir]
      intro q hq
      simp only [VcpkgRepo.replacePortsStage, hlink, Bool.false_eq_true, if_false, hdir', if_true]
      exact rmtreeResult_lookup_under fs hl hq
    · have h0 := hnone r.portsPath (underTree_refl _)
      have hlink : fs.islink r.portsPath = false := by simp [FS.islink, h0]
      have hdir' : fs.isdir r.portsPath = false := by simp [FS.isdir, h0]
      intro q hq
      simp only [VcpkgRepo.replacePortsStage, hlink, Bool.false_eq_true, if_false, hdir']
      exact hnone q hq
    · have hlink : fs.islink r.portsPath = true := by simp [FS.islink, hpp]
      have hdir1 : (fs.unlink r.portsPath).isdir r.portsPath = false := by
        simp [FS.isdir, unlink_lookup_self]
      intro q hq
      simp only [VcpkgRepo.replacePortsStage, hlink, if_true, hdir1, Bool.false_eq_true, if_false]
      by_cases hqp : q = r.portsPath
      · subst hqp
        exact unlink_lookup_self fs _
      · rw [unlink_lookup_ne fs _ hqp]
        exact hrest q hq hqp
  have hdst : (r.replacePortsStage fs).lookup r.portsPath = none := hP1 _ (underTree_refl _)
  have hsrcdir2 : (r.replacePortsStage fs).isdir r.args.ports_path = true := by
    rw [isdir_congr (replacePortsStage_lookup_other r fs hsrc1)]
    exact hsrcdir
  refine ⟨?_, ?_, ?_, ?_, ?_⟩
  · rw [replacePorts_eq, copytree_of_none hsrcdir2 hdst]
  · exact copytreeFS_lookup_dst _ _ _
  · intro rel hrel
    rw [copytreeFS_lookup_rel _ _ _ hrel (fun q hq _ => hP1 q hq)]
    exact hP2 _ (not_under_of_disjoint rel hsrc1 hsrc2)
  · intro q hq
    rw [copytreeFS_lookup_other _ _ _ hq]
    exact hP2 q hq
  · rw [copytreeFS_locked]
    exact replacePortsStage_locked r fs

/-! ### Lemmas about upToDate and bootstrap -/

theorem upToDate_iff (r : VcpkgRepo) (fs : FS) :
    r.upToDate fs = true ↔
      (r.args.vcpkg_root.isSome = true ∨
        (r.args.force_build = false ∧ fs.isfile r.exe = true ∧ fs.isfile r.tagFile = true ∧
          fs.readFile r.tagFile = some r.tagContents)) := by
  unfold VcpkgRepo.upToDate
  split_ifs with h1 h2 h3 h4
  · simp [h1]
  · simp only [Bool.not_eq_true] at h1
    simp [h1, h2]
  · simp only [Bool.not_eq_true] at h1
    simp only [Bool.not_eq_true', Bool.not_eq_false] at h3
    simp [h1, h2, h3]
  · simp only [Bool.not_eq_true] at h1
    simp only [Bool.not_eq_true', Bool.not_eq_false] at h3 h4
    simp [h1, h2, h3, h4]
  · simp only [Bool.not_eq_true] at h1
    simp only [Bool.not_eq_true, Bool.not_eq_false'] at h3 h4
    simp [h1, h2, h3, h4]

theorem upToDate_writeTag (r : VcpkgRepo) (fs : FS) (hforce : r.args.force_build = false)
    (hexe : fs.isfile r.exe = true) (hne : r.exe ≠ r.tagFile) :
    r.upToDate (r.writeTag fs) = true := by
  rw [upToDate_iff]
  right
  unfold VcpkgRepo.writeTag
  refine ⟨hforce, ?_, ?_, ?_⟩
  · rw [isfile_congr (writeFile_lookup_ne fs _ _ hne)]
    exact hexe
  · simp [FS.isfile, writeFile_lookup_self]
  · simp [FS.readFile, writeFile_lookup_self]

theorem bootstrap_of_upToDate (r : VcpkgRepo) (fs : FS) (h : r.upToDate fs = true) :
    r.bootstrap fs = (fs, ⟨false, false, false⟩, none) := by
  simp [VcpkgRepo.bootstrap, h]

theorem bootstrap_of_not_upToDate (r : VcpkgRepo) (fs : FS) (h : r.upToDate fs = false) :
    r.bootstrap fs = r.bootstrapAfterClean (r.cleanFS fs) := by
  rw [VcpkgRepo.bootstrap, h, clean_eq_ok]
  simp

theorem bootstrapAfterClean_dl_fail (r : VcpkgRepo) (fs1 : FS)
    (hdl : r.downloadDecision fs1 = true) (harch : r.ext.vcpkgArchive = none) :
    r.bootstrapAfterClean fs1 =
      (fs1, ⟨true, false, false⟩,
        some "downloadAndExtract failed: hash mismatch or network error") := by
  rw [VcpkgRepo.bootstrapAfterClean, hdl, harch]
  simp [runDownloadAndExtract]

theorem bootstrapAfterClean_dl_ok (r : VcpkgRepo) (fs1 : FS) {arch : List (FsPath × Node)}
    (hdl : r.downloadDecision fs1 = true) (harch : r.ext.vcpkgArchive = some arch) :
    r.bootstrapAfterClean fs1 =
      (match r.replacePorts (extractInto r.path arch fs1) with
       | Except.error e => (extractInto r.path arch fs1, ⟨true, true, false⟩, some e)
       | Except.ok fs3 => (fs3, ⟨true, true, true⟩, none)) := by
  rw [VcpkgRepo.bootstrapAfterClean, hdl, harch]
  simp [runDownloadAndExtract]

theorem bootstrapAfterClean_no_dl (r : VcpkgRepo) (fs1 : FS)
    (hdl : r.downloadDecision fs1 = false) :
    r.bootstrapAfterClean fs1 =
      (match r.replacePorts fs1 with
       | Except.error e => (fs1, ⟨true, false, false⟩, some e)
       | Except.ok fs3 => (fs3, ⟨true, false, true⟩, none)) := by
  rw [VcpkgRepo.bootstrapAfterClean, hdl]
  simp

/-! ### Lemmas about string formatting and normalization -/

theorem strExt {s t : String} (h : s.data = t.data) : s = t :=
  congrArg String.mk h

theorem pyFormatL_cons_ne {c : Char} (h : c ≠ '\x7b') (cs : List Char) (args : List String) :
    pyFormatL (c :: cs) args = c :: pyFormatL cs args := by
  cases cs with
  | nil => rfl
  | cons d rest => simp [pyFormatL, h]

theorem pyFormatL_append_no_brace (cs rest : List Char) (args : List String)
    (h : '\x7b' ∉ cs) : pyFormatL (cs ++ rest) args = cs ++ pyFormatL rest args := by
  induction cs with
  | nil => rfl
  | cons c cs ih =>
    have hc : c ≠ '\x7b' := by
      intro hx
      exact h (by simp [hx])
    have h' : '\x7b' ∉ cs := fun hx => h (List.mem_cons_of_mem _ hx)
    rw [List.cons_append, pyFormatL_cons_ne hc, ih h', List.cons_append]

theorem pyFormatL_no_brace (cs : List Char) (args : List String) (h : '\x7b' ∉ cs) :
    pyFormatL cs args = cs := by
  have := pyFormatL_append_no_brace cs [] args h
  simpa [pyFormatL] using this

theorem pyFormatL_ph (rest : List Char) (a : String) (args : List String) :
    pyFormatL ('\x7b' :: '\x7d' :: rest) (a :: args) = a.data ++ pyFormatL rest args := by
  simp [pyFormatL]

theorem pyFormat_template (suffix : String) (s1 s2 s3 s4 : String)
    (hs : '\x7b' ∉ suffix.data) :
    pyFormat (CMAKE_TEMPLATE ++ suffix) [s1, s2, s3, s4] =
      tLit1 ++ s1 ++ tLit2 ++ s2 ++ tLit3 ++ s3 ++ tLit4 ++ s4 ++ tLit5 ++ suffix := by
  have h1 : '\x7b' ∉ tLit1.data := by decide
  have h2 : '\x7b' ∉ tLit2.data := by decide
  have h3 : '\x7b' ∉ tLit3.data := by decide
  have h4 : '\x7b' ∉ tLit4.data := by decide
  have h5 : '\x7b' ∉ tLit5.data := by decide
  have hdata : (CMAKE_TEMPLATE ++ suffix).data
      = tLit1.data ++ ('\x7b' :: '\x7d' :: (tLit2.data ++ ('\x7b' :: '\x7d' ::
          (tLit3.data ++ ('\x7b' :: '\x7d' :: (tLit4.data ++ ('\x7b' :: '\x7d' ::
            (tLit5.data ++ suffix.data)))))))) := rfl
  apply strExt
  show pyFormatL ((CMAKE_TEMPLATE ++ suffix).data) [s1, s2, s3, s4] = _
  rw [hdata]
  rw [pyFormatL_append_no_brace _ _ _ h1, pyFormatL_ph]
  rw [pyFormatL_append_no_brace _ _ _ h2, pyFormatL_ph]
  rw [pyFormatL_append_no_brace _ _ _ h3, pyFormatL_ph]
  rw [pyFormatL_append_no_brace _ _ _ h4, pyFormatL_ph]
  rw [pyFormatL_append_no_brace _ _ _ h5, pyFormatL_no_brace _ _ hs]
  simp [String.data_append, List.append_assoc]

theorem pyFormat_single (lit1 lit2 : String) (s : String)
    (h1 : '\x7b' ∉ lit1.data) (h2 : '\x7b' ∉ lit2.data) :
    pyFormat (lit1 ++ ph ++ lit2) [s] = lit1 ++ s ++ lit2 := by
  apply strExt
  show pyFormatL ((lit1 ++ ph ++ lit2).data) [s] = _
  have hdata : (lit1 ++ ph ++ lit2).data = lit1.data ++ ('\x7b' :: '\x7d' :: lit2.data) := by
    simp [String.data_append, ph]
  rw [hdata]
  rw [pyFormatL_append_no_brace _ _ _ h1, pyFormatL_ph, pyFormatL_no_brace _ _ h2]
  simp [String.data_append, List.append_assoc]

theorem normalizeSlashes_append (a b : String) :
    normalizeSlashes (a ++ b) = normalizeSlashes a ++ normalizeSlashes b := by
  apply strExt
  show ((a ++ b).data).map _ = _
  simp [normalizeSlashes, String.data_append]

theorem normalizeSlashes_no_backslash (s : String) :
    ∀ c ∈ (normalizeSlashes s).data, c ≠ '\\' := by
  intro c hc
  simp only [normalizeSlashes, List.mem_map] at hc
  obtain ⟨x, _, rfl⟩ := hc
  by_cases hx : x = '\\'
  · simp [hx]
  · simp only [hx, if_false]
    exact hx

/-! ### Further path and preservation lemmas -/

theorem append_singleton_ne (p : FsPath) (a : String) : p ++ [a] ≠ p := by
  intro h
  have := congrArg List.length h
  simp at this

theorem underTree_append_singleton {p : FsPath} {a b : String} (h : a ≠ b) :
    underTree (p ++ [a]) (p ++ [b]) = false := by
  rcases hu : underTree (p ++ [a]) (p ++ [b]) with _ | _
  · rfl
  · exfalso
    obtain ⟨t, ht⟩ := underTree_iff.mp hu
    rw [List.append_assoc] at ht
    have h2 := List.append_cancel_left ht
    rw [List.cons_append] at h2
    injection h2 with h3
    exact h h3

theorem not_under_extend {p q : FsPath} (t : FsPath) (h : underTree p q = false) :
    underTree (p ++ t) q = false := by
  rcases hu : underTree (p ++ t) q with _ | _
  · rfl
  · exfalso
    rw [underTree_trans (underTree_append p t) hu] at h
    simp at h

theorem upToDate_false_of_no_tag (r : VcpkgRepo) (fsx : FS)
    (hroot : r.args.vcpkg_root = none) (htag : fsx.lookup r.tagFile = none) :
    r.upToDate fsx = false := by
  rcases h : r.upToDate fsx with _ | _
  · rfl
  · exfalso
    rw [upToDate_iff] at h
    rcases h with h1 | ⟨_, _, h3, _⟩
    · rw [hroot] at h1
      simp at h1
    · rw [show fsx.isfile r.tagFile = false by simp [FS.isfile, htag]] at h3
      simp at h3

theorem bootstrap_preserve (r : VcpkgRepo) (fs : FS) {q : FsPath}
    (hq : underTree r.path q = false) :
    (r.bootstrap fs).1.lookup q = fs.lookup q := by
  rcases hut : r.upToDate fs with _ | _
  · rw [bootstrap_of_not_upToDate r fs hut]
    have h1 : (r.cleanFS fs).lookup q = fs.lookup q := cleanFS_lookup_not_under r fs hq
    have hpp : underTree r.portsPath q = false := not_under_extend _ hq
    rcases hdl : r.downloadDecision (r.cleanFS fs) with _ | _
    · rw [bootstrapAfterClean_no_dl r _ hdl]
      cases hrp : r.replacePorts (r.cleanFS fs) with
      | error e => exact h1
      | ok fs3 =>
        show fs3.lookup q = fs.lookup q
        rw [replacePorts_ok_preserve r hrp hpp]
        exact h1
    · rcases harch : r.ext.vcpkgArchive with _ | arch
      · rw [bootstrapAfterClean_dl_fail r _ hdl harch]
        exact h1
      · rw [bootstrapAfterClean_dl_ok r _ hdl harch]
        have h2 : (extractInto r.path arch (r.cleanFS fs)).lookup q = fs.lookup q := by
          rw [extractInto_lookup_not_under _ _ hq]
          exact h1
        cases hrp : r.replacePorts (extractInto r.path arch (r.cleanFS fs)) with
        | error e => exact h2
        | ok fs3 =>
          show fs3.lookup q = fs.lookup q
          rw [replacePorts_ok_preserve r hrp hpp]
          exact h2
  · rw [bootstrap_of_upToDate r fs hut]

theorem runDownloadAndExtract_ok_preserve {f : Option (List (FsPath × Node))} {dest : FsPath}
    {fs fs' : FS} (hok : runDownloadAndExtract f dest fs = Except.ok fs') {q : FsPath}
    (hq : underTree dest q = false) : fs'.lookup q = fs.lookup q := by
  cases f with
  | none => cases hok
  | some arch =>
    injection hok with h'
    rw [← h']
    exact extractInto_lookup_not_under _ _ hq

theorem installAndroidPackages_preserve (r : VcpkgRepo) {q : FsPath}
    (hq : underTree r.androidPackagePath q = false) :
    ∀ (pkgs : List (String × Option (List (FsPath × Node)))) (fs fs' : FS),
      installAndroidPackages r pkgs fs = Except.ok fs' → fs'.lookup q = fs.lookup q := by
  intro pkgs
  induction pkgs with
  | nil =>
    intro fs fs' h
    injection h with h'
    rw [h']
  | cons p rest ih =>
    obtain ⟨name, fetched⟩ := p
    intro fs fs' h
    rw [installAndroidPackages] at h
    split at h
    · exact ih fs fs' h
    · cases hd : runDownloadAndExtract fetched (r.androidPackagePath ++ [name]) fs with
      | error e =>
        rw [hd] at h
        cases h
      | ok fs2 =>
        rw [hd] at h
        have hstep : fs2.lookup q = fs.lookup q :=
          runDownloadAndExtract_ok_preserve hd (not_under_extend _ hq)
        rw [ih fs2 fs' h]
        exact hstep

theorem installQt_preserve (r : VcpkgRepo) {fs fs' : FS}
    (hok : r.installQt fs = Except.ok fs') {q : FsPath}
    (hpath : underTree r.path q = false) : fs'.lookup q = fs.lookup q := by
  unfold VcpkgRepo.installQt at hok
  split at hok
  · exact runDownloadAndExtract_ok_preserve hok (not_under_extend _ hpath)
  · injection hok with h'
    rw [h']

theorem setupAndroidDependencies_preserve (r : VcpkgRepo) {fs fs' : FS}
    (hok : r.setupAndroidDependencies fs = Except.ok fs') {q : FsPath}
    (hpath : underTree r.path q = false)
    (hand : underTree r.androidPackagePath q = false) :
    fs'.lookup q = fs.lookup q := by
  unfold VcpkgRepo.setupAndroidDependencies at hok
  cases hX : (if !(fs.isdir (r.path ++ ["installed", "arm64-android"])) then
      runDownloadAndExtract r.ext.androidBaseArchive (r.path ++ ["installed"]) fs
    else Except.ok fs) with
  | error e =>
    rw [hX] at hok
    cases hok
  | ok fs2 =>
    rw [hX] at hok
    have hstep : fs2.lookup q = fs.lookup q := by
      split at hX
      · exact runDownloadAndExtract_ok_preserve hX (not_under_extend _ hpath)
      · injection hX with h'
        rw [← h']
    rw [installAndroidPackages_preserve r hand _ fs2 fs' hok]
    exact hstep

theorem setupDependencies_preserve (r : VcpkgRepo) {fs fs' : FS}
    (hok : r.setupDependencies fs = Except.ok fs') {q : FsPath}
    (hpath : underTree r.path q = false)
    (hand : underTree r.androidPackagePath q = false) :
    fs'.lookup q = fs.lookup q := by
  unfold VcpkgRepo.setupDependencies at hok
  cases hX : (if r.args.android then r.setupAndroidDependencies fs else Except.ok fs) with
  | error e =>
    rw [hX] at hok
    cases hok
  | ok fsa =>
    rw [hX] at hok
    have hstep : fsa.lookup q = fs.lookup q := by
      split at hX
      · exact setupAndroidDependencies_preserve r hX hpath hand
      · injection hX with h'
        rw [← h']
    rcases hA : r.args.android with _ | _
    · have hok2 : r.installQt fsa = Except.ok fs' := by
        rw [hA] at hok
        exact hok
      rw [installQt_preserve r hok2 hpath]
      exact hstep
    · have hok2 : (Except.ok fsa : Except String FS) = Except.ok fs' := by
        rw [hA] at hok
        exact hok
      injection hok2 with h'
      rw [← h']
      exact hstep

theorem makedirsIf_lookup_longer (c : Prop) [Decidable c] (p q : FsPath) (fsx : FS)
    (h : p.length < q.length) :
    (if c then makedirs p fsx else fsx).lookup q = fsx.lookup q := by
  split
  · exact makedirs_lookup_longer fsx h
  · rfl

theorem mkRepo_lockFile_preserve (a : Args) (e : ExtEnv) (fs : FS) :
    ((mkRepo a e fs).2).lookup ((mkRepo a e fs).1).lockFile
      = fs.lookup ((mkRepo a e fs).1).lockFile := by
  rcases hv : a.vcpkg_root with _ | rootPath
  · simp only [mkRepo, hv]
    generalize (if a.android = true then e.baseEnv.getD e.defaultBasePath ++ ["android"]
        else e.baseEnv.getD e.defaultBasePath) = B
    have hdrop : (B ++ [computeId e.folderHash]).dropLast = B := by simp
    rw [hdrop]
    rw [makedirsIf_lookup_longer, makedirsIf_lookup_longer]
    all_goals simp
  · simp only [mkRepo, hv]
    rw [makedirsIf_lookup_longer]
    simp

/-! ### The claims -/

/-- C1: the Tag is derived deterministically from the overlay content hash
and the format version: the constructor stores `id` as the first 8
characters of the hash and `tagContents` as `id ++ "_" ++ version`, with
version 1; identical hash and version always yield an identical Tag; and a
hash whose 8-character prefix is `abc123de` yields Tag `abc123de_1` at
version 1 and `abc123de_2` at version 2. -/
theorem tag_derivation (a : Args) (e : ExtEnv) (fs : FS) :
    ((mkRepo a e fs).1).id = computeId e.folderHash ∧
    ((mkRepo a e fs).1).version = 1 ∧
    ((mkRepo a e fs).1).tagContents
      = mkTagContents ((mkRepo a e fs).1).id ((mkRepo a e fs).1).version ∧
    (∀ (h1 h2 : String) (v1 v2 : Nat), h1 = h2 → v1 = v2 →
      mkTagContents (computeId h1) v1 = mkTagContents (computeId h2) v2) ∧
    (∀ h : String, computeId h = "abc123de" →
      mkTagContents (computeId h) 1 = "abc123de_1" ∧
      mkTagContents (computeId h) 2 = "abc123de_2") := by
  refine ⟨rfl, rfl, rfl, ?_, ?_⟩
  · intro h1 h2 v1 v2 hh hv
    rw [hh, hv]
  · intro h hid
    rw [hid]
    exact ⟨by decide, by decide⟩

/-- Closed instance of C1 at the hash `abc123def0`. -/
theorem tag_derivation_witness :
    mkTagContents (computeId "abc123def0") 1 = "abc123de_1" ∧
    mkTagContents (computeId "abc123def0") 2 = "abc123de_2" :=
  (tag_derivation sampleArgs sampleEnv sampleFS).2.2.2.2 "abc123def0" (by decide)

/-- C2: `upToDate` returns true exactly when the installation root was
user-supplied (then unconditionally true, force flag notwithstanding), or
the force-rebuild flag is unset, the executable exists, the tag file
exists, and the tag file's whole stored content equals the computed Tag. -/
theorem upToDate_characterization (r : VcpkgRepo) (fs : FS) :
    r.upToDate fs = true ↔
      (r.args.vcpkg_root.isSome = true ∨
        (r.args.force_build = false ∧ fs.isfile r.exe = true ∧ fs.isfile r.tagFile = true ∧
          fs.readFile r.tagFile = some r.tagContents)) :=
  upToDate_iff r fs

/-- C8: `clean` never raises (it always returns a success), is a no-op on a
non-existent root, removes the whole root subtree when the root exists while
silently skipping locked (undeletable) entries, and touches nothing outside
the root. -/
theorem clean_best_effort (r : VcpkgRepo) (fs : FS) :
    r.clean fs = Except.ok (r.cleanFS fs) ∧
    (fs.isdir r.path = false → r.cleanFS fs = fs) ∧
    (fs.isdir r.path = true → ∀ q, underTree r.path q = true → q ∉ fs.locked →
      (r.cleanFS fs).lookup q = none) ∧
    (∀ q, underTree r.path q = false → (r.cleanFS fs).lookup q = fs.lookup q) := by
  refine ⟨clean_eq_ok r fs, ?_, ?_, fun q hq => cleanFS_lookup_not_under r fs hq⟩
  · intro h
    simp [VcpkgRepo.cleanFS, h]
  · intro h q hq hlock
    simp only [VcpkgRepo.cleanFS, h, if_true]
    apply lookupKey_filter_none
    intro en _ hk
    simp [hk, hq, hlock]

/-- Closed instance of C8: on a root with a locked entry, clean still
succeeds and removes the removable entries. -/
theorem clean_best_effort_witness :
    sampleRepoRoot.clean lockedFS = Except.ok (sampleRepoRoot.cleanFS lockedFS) ∧
    (sampleRepoRoot.cleanFS lockedFS).lookup ["root", "a"] = none :=
  ⟨(clean_best_effort sampleRepoRoot lockedFS).1,
   (clean_best_effort sampleRepoRoot lockedFS).2.2.1 (by decide) ["root", "a"]
     (by decide) (by decide)⟩

/-- C6: after `writeTag` overwrites the tag file with exactly the computed
Tag, an immediately following `upToDate` returns true, provided the
executable exists and the force-rebuild flag is unset. -/
theorem writeTag_then_upToDate (r : VcpkgRepo) (fs : FS)
    (hforce : r.args.force_build = false) (hexe : fs.isfile r.exe = true)
    (hne : r.exe ≠ r.tagFile) :
    (r.writeTag fs).lookup r.tagFile = some (Node.file r.tagContents) ∧
    r.upToDate (r.writeTag fs) = true :=
  ⟨writeFile_lookup_self fs _ _, upToDate_writeTag r fs hforce hexe hne⟩

/-- Closed instance of C6 after a completed bootstrap. -/
theorem writeTag_then_upToDate_witness :
    sampleRepo.upToDate (sampleRepo.writeTag sampleBootFS) = true :=
  (writeTag_then_upToDate sampleRepo sampleBootFS (by decide) (by decide) (by decide)).2

/-- C3 counterexample: bootstrap run twice in succession with unchanged
inputs is NOT work-free on the second call.  On the sample state the first
call succeeds and downloads; because bootstrap never writes the tag file,
the second call is also stale and downloads (and cleans) again, refuting
"performs acquisition/copy work only on the first call". -/
theorem bootstrap_twice_cex :
    (sampleRepo.bootstrap sampleFS1).2.2 = none ∧
    (sampleRepo.bootstrap sampleFS1).2.1.downloaded = true ∧
    (sampleRepo.bootstrap sampleBootFS).2.1.downloaded = true ∧
    (sampleRepo.bootstrap sampleBootFS).2.1.cleaned = true ∧
    (sampleRepo.bootstrap sampleBootFS).2.1.copiedPorts = true := by
  decide

/-- C3 amended: bootstrap returns immediately (no cleaning, no download, no
copy) whenever `upToDate` is true; consequently a second bootstrap call
performs no work and leaves the filesystem unchanged provided the tag was
persisted with `writeTag` after the first call (with the executable present
and no force-rebuild flag) — not after a bare bootstrap, which never writes
the tag. -/
theorem bootstrap_idempotent :
    (∀ (r : VcpkgRepo) (fs : FS), r.upToDate fs = true →
      r.bootstrap fs = (fs, ⟨false, false, false⟩, none)) ∧
    (∀ (r : VcpkgRepo) (fs fs1 : FS) (tr : BootTrace),
      r.bootstrap fs = (fs1, tr, none) →
      r.args.force_build = false → fs1.isfile r.exe = true → r.exe ≠ r.tagFile →
      r.bootstrap (r.writeTag fs1) = (r.writeTag fs1, ⟨false, false, false⟩, none)) := by
  constructor
  · exact fun r fs h => bootstrap_of_upToDate r fs h
  · intro r fs fs1 tr hboot hforce hexe hne
    exact bootstrap_of_upToDate _ _ (upToDate_writeTag r fs1 hforce hexe hne)

/-- Closed instance of the amended C3: after bootstrap + writeTag, the next
bootstrap is a no-op. -/
theorem bootstrap_idempotent_witness :
    sampleRepo.bootstrap (sampleRepo.writeTag sampleBootFS)
      = (sampleRepo.writeTag sampleBootFS, ⟨false, false, false⟩, none) :=
  bootstrap_idempotent.2 sampleRepo sampleFS1 sampleBootFS ⟨true, true, true⟩
    (by decide) (by decide) (by decide) (by decide)

/-- C7: in a non-up-to-date bootstrap run (which begins by cleaning the
root), with the archive fetch available, the base binary archive is
downloaded and extracted if and only if the force-bootstrap flag is set, or
the executable is missing from the cleaned state, or the `.vcpkg-root`
marker is missing from the cleaned state. -/
theorem download_decision_iff (r : VcpkgRepo) (fs : FS) (arch : List (FsPath × Node))
    (harch : r.ext.vcpkgArchive = some arch) (hstale : r.upToDate fs = false) :
    (r.bootstrap fs).2.1.downloaded =
      (r.args.force_bootstrap || !((r.cleanFS fs).isfile r.exe)
        || !((r.cleanFS fs).isfile (r.path ++ [".vcpkg-root"]))) := by
  rw [bootstrap_of_not_upToDate r fs hstale]
  have hrhs : (r.args.force_bootstrap || !((r.cleanFS fs).isfile r.exe)
      || !((r.cleanFS fs).isfile (r.path ++ [".vcpkg-root"])))
      = r.downloadDecision (r.cleanFS fs) := rfl
  rw [hrhs]
  rcases hdl : r.downloadDecision (r.cleanFS fs) with _ | _
  · rw [bootstrapAfterClean_no_dl r _ hdl]
    cases hrp : r.replacePorts (r.cleanFS fs) with
    | error e => rfl
    | ok fs3 => rfl
  · rw [bootstrapAfterClean_dl_ok r _ hdl harch]
    cases hrp : r.replacePorts (extractInto r.path arch (r.cleanFS fs)) with
    | error e => rfl
    | ok fs3 => rfl

/-- Closed instance of C7 on the sample state (executable missing after the
clean, so the download happens). -/
theorem download_decision_iff_witness :
    (sampleRepo.bootstrap sampleFS1).2.1.downloaded =
      (sampleRepo.args.force_bootstrap || !((sampleRepo.cleanFS sampleFS1).isfile sampleRepo.exe)
        || !((sampleRepo.cleanFS sampleFS1).isfile (sampleRepo.path ++ [".vcpkg-root"]))) :=
  download_decision_iff sampleRepo sampleFS1
    [(["vcpkg"], Node.file "exe"), ([".vcpkg-root"], Node.file ""), (["scripts"], Node.dir)]
    (by decide) (by decide)

/-- C4: bootstrap never writes or creates the tag file (only the separate
`writeTag` does): any bootstrap run that does work — successful or aborted
by a failed acquisition — leaves the tag file absent from the cleaned root,
and a subsequent `upToDate` (managed root) returns false. -/
theorem bootstrap_never_writes_tag (r : VcpkgRepo) (fs : FS)
    (hroot : r.args.vcpkg_root = none)
    (hl : fs.locked = [])
    (htagf : r.tagFile = r.path ++ [".id"])
    (hshape : fs.isdir r.path = true ∨ ∀ q, underTree r.path q = true → fs.lookup q = none)
    (harch : ∀ arch, r.ext.vcpkgArchive = some arch → ∀ en ∈ arch, en.1 ≠ [".id"])
    (hstale : r.upToDate fs = false) :
    (r.bootstrap fs).1.lookup r.tagFile = none ∧
    r.upToDate (r.bootstrap fs).1 = false := by
  have hTagUnder : underTree r.path r.tagFile = true := by
    rw [htagf]
    exact underTree_append _ _
  have htag1 : (r.cleanFS fs).lookup r.tagFile = none :=
    cleanFS_lookup_under r fs hl hshape hTagUnder
  have hPortsTag : underTree r.portsPath r.tagFile = false := by
    rw [htagf]
    exact underTree_append_singleton (by decide)
  have hmain : (r.bootstrap fs).1.lookup r.tagFile = none := by
    rw [bootstrap_of_not_upToDate r fs hstale]
    rcases hdl : r.downloadDecision (r.cleanFS fs) with _ | _
    · rw [bootstrapAfterClean_no_dl r _ hdl]
      cases hrp : r.replacePorts (r.cleanFS fs) with
      | error e => exact htag1
      | ok fs3 =>
        show fs3.lookup r.tagFile = none
        rw [replacePorts_ok_preserve r hrp hPortsTag]
        exact htag1
    · rcases harch2 : r.ext.vcpkgArchive with _ | arch
      · rw [bootstrapAfterClean_dl_fail r _ hdl harch2]
        exact htag1
      · rw [bootstrapAfterClean_dl_ok r _ hdl harch2]
        have h1 : r.tagFile ≠ r.path := by
          rw [htagf]
          exact append_singleton_ne _ _
        have h2 : ∀ en ∈ arch, r.path ++ en.1 ≠ r.tagFile := by
          intro en hen hkey
          rw [htagf] at hkey
          exact harch arch harch2 en hen (List.append_cancel_left hkey)
        have htag2 : (extractInto r.path arch (r.cleanFS fs)).lookup r.tagFile = none := by
          rw [extractInto_lookup_other arch _ h1 h2]
          exact htag1
        cases hrp : r.replacePorts (extractInto r.path arch (r.cleanFS fs)) with
        | error e => exact htag2
        | ok fs3 =>
          show fs3.lookup r.tagFile = none
          rw [replacePorts_ok_preserve r hrp hPortsTag]
          exact htag2
  exact ⟨hmain, upToDate_false_of_no_tag r _ hroot hmain⟩

/-- Closed instance of C4: the fetch fails its integrity check, the tag file
is absent afterwards and the installation stays stale. -/
theorem bootstrap_never_writes_tag_witness :
    (sampleRepoBad.bootstrap sampleStaleFS).1.lookup sampleRepoBad.tagFile = none ∧
    sampleRepoBad.upToDate (sampleRepoBad.bootstrap sampleStaleFS).1 = false :=
  bootstrap_never_writes_tag sampleRepoBad sampleStaleFS (by decide) (by decide) (by decide)
    (Or.inl (by decide)) (fun _ h => Option.noConfusion h) (by decide)

/-- C9: `writeConfig` emits a deterministic text file: the formatted base
template contains the toolchain script path twice (once cached, once
uncached) plus the install root and tools directory, every path separator is
normalized (no backslash survives the final replacement), the
platform-specific clause appended is exactly the non-android guard or the
two android precompiled-path variables according to the android flag, and
the rendered text is written at the config file path.  The brace-freedom
hypotheses rule out the pathological case of an android path string that
itself contains a format placeholder (where Python's `format` would raise). -/
theorem config_emission (r : VcpkgRepo)
    (hp : '\x7b' ∉ r.precompiledStr.data)
    (hq : '\x7b' ∉ r.qtCmakePrefixStr.data) :
    (r.configText
      = normalizeSlashes (tLit1 ++ r.cmakeScriptStr ++ tLit2 ++ r.cmakeScriptStr ++ tLit3
          ++ r.installPathStr ++ tLit4 ++ r.toolsPathStr ++ tLit5)
        ++ normalizeSlashes (if r.args.android
            then aLit1 ++ r.precompiledStr ++ aLit2 ++ (qLit1 ++ r.qtCmakePrefixStr ++ aLit2)
            else CMAKE_TEMPLATE_NON_ANDROID)) ∧
    (∀ c ∈ r.configText.data, c ≠ '\\') ∧
    (∀ r' : VcpkgRepo, r.args.android = r'.args.android → r.sep = r'.sep →
      r.path = r'.path → r.triplet = r'.triplet → r.hostTriplet = r'.hostTriplet →
      r.androidPackagePath = r'.androidPackagePath → r.configText = r'.configText) ∧
    (∀ fs : FS, (r.writeConfig fs).lookup r.configFilePath = some (Node.file r.configText)) := by
  refine ⟨?_, ?_, ?_, ?_⟩
  · rcases hA : r.args.android with _ | _
    · have ht : r.cmakeTemplate = CMAKE_TEMPLATE ++ CMAKE_TEMPLATE_NON_ANDROID := by
        simp [VcpkgRepo.cmakeTemplate, hA]
      unfold VcpkgRepo.configText
      rw [ht, pyFormat_template _ _ _ _ _ (by decide)]
      rw [normalizeSlashes_append]
      rfl
    · have hA1 : pyFormat SET_PRECOMPILED [r.precompiledStr]
          = aLit1 ++ r.precompiledStr ++ aLit2 :=
        pyFormat_single aLit1 aLit2 _ (by decide) (by decide)
      have hA2 : pyFormat SET_QT_PREFIX [r.qtCmakePrefixStr]
          = qLit1 ++ r.qtCmakePrefixStr ++ aLit2 :=
        pyFormat_single qLit1 aLit2 _ (by decide) (by decide)
      have ht : r.cmakeTemplate = CMAKE_TEMPLATE
          ++ (aLit1 ++ r.precompiledStr ++ aLit2 ++ (qLit1 ++ r.qtCmakePrefixStr ++ aLit2)) := by
        simp only [VcpkgRepo.cmakeTemplate, hA, Bool.not_true, Bool.false_eq_true, if_false]
        rw [hA1, hA2, String.append_assoc]
      have d1 : '\x7b' ∉ aLit1.data := by decide
      have d2 : '\x7b' ∉ aLit2.data := by decide
      have d3 : '\x7b' ∉ qLit1.data := by decide
      have hsuf : '\x7b'
          ∉ (aLit1 ++ r.precompiledStr ++ aLit2
              ++ (qLit1 ++ r.qtCmakePrefixStr ++ aLit2)).data := by
        intro hmem
        simp only [String.data_append, List.mem_append] at hmem
        tauto
      unfold VcpkgRepo.configText
      rw [ht, pyFormat_template _ _ _ _ _ hsuf]
      rw [normalizeSlashes_append]
      rfl
  · exact fun c hc => normalizeSlashes_no_backslash _ c hc
  · intro r' hA hsep hpath htr hht happ
    unfold VcpkgRepo.configText VcpkgRepo.cmakeTemplate VcpkgRepo.cmakeScriptStr
      VcpkgRepo.installPathStr VcpkgRepo.toolsPathStr VcpkgRepo.precompiledStr
      VcpkgRepo.qtCmakePrefixStr
    rw [hA, hsep, hpath, htr, hht, happ]
  · intro fs
    exact writeFile_lookup_self fs _ _

/-- Closed instance of C9: the rendered configuration is written at the
config file path. -/
theorem config_emission_witness :
    (sampleRepo.writeConfig sampleFS).lookup sampleRepo.configFilePath
      = some (Node.file sampleRepo.configText) :=
  (config_emission sampleRepo (by decide) (by decide)).2.2.2 sampleFS

/-- Closed instance of C5: a stale real ports directory is replaced and the
overlay file appears under the fresh ports directory. -/
theorem ports_overlay_replacement_witness :
    sampleRepo.replacePorts samplePortsFS
        = Except.ok (copytreeFS sampleRepo.args.ports_path sampleRepo.portsPath
            (sampleRepo.replacePortsStage samplePortsFS)) ∧
    (copytreeFS sampleRepo.args.ports_path sampleRepo.portsPath
        (sampleRepo.replacePortsStage samplePortsFS)).lookup
          (sampleRepo.portsPath ++ ["portfile"])
        = samplePortsFS.lookup (sampleRepo.args.ports_path ++ ["portfile"]) :=
  ⟨(ports_overlay_replacement sampleRepo samplePortsFS (by decide) (by decide)
      (Or.inl (by decide)) (by decide) (by decide)).1,
   (ports_overlay_replacement sampleRepo samplePortsFS (by decide) (by decide)
      (Or.inl (by decide)) (by decide) (by decide)).2.2.1 ["portfile"] (by decide)⟩

/-- C10 counterexample: the advisory lock-marker FILE is not created at
construction — the constructor only computes its path and ensures the
parent directory exists.  After constructing over the sample filesystem
(which does not contain the lock path), nothing exists at the lock path. -/
theorem lockfile_not_created_cex :
    sampleFS1.lookup sampleRepo.lockFile = none ∧
    sampleFS1.isfile sampleRepo.lockFile = false := by
  decide

/-- C10 amended: the advisory lock-marker path is computed at construction
(only its parent directory is ensured to exist) but the file itself is never
created, opened, or modified — neither by the constructor nor by any
operation (`upToDate` reads only and returns a Bool; `clean`, `bootstrap`,
`setupDependencies`, `writeTag` and `writeConfig` all leave the lock path's
content unchanged, under the non-aliasing side conditions that hold for
constructor-produced repositories). -/
theorem lockfile_reserved_only :
    (∀ (a : Args) (e : ExtEnv) (fs : FS),
      ((mkRepo a e fs).2).lookup ((mkRepo a e fs).1).lockFile
        = fs.lookup ((mkRepo a e fs).1).lockFile) ∧
    (∀ (r : VcpkgRepo) (fs : FS),
      r.clean fs = Except.ok (r.cleanFS fs) ∧
      (underTree r.path r.lockFile = false →
        (r.cleanFS fs).lookup r.lockFile = fs.lookup r.lockFile)) ∧
    (∀ (r : VcpkgRepo) (fs : FS), underTree r.path r.lockFile = false →
      (r.bootstrap fs).1.lookup r.lockFile = fs.lookup r.lockFile) ∧
    (∀ (r : VcpkgRepo) (fs fs' : FS), r.setupDependencies fs = Except.ok fs' →
      underTree r.path r.lockFile = false →
      underTree r.androidPackagePath r.lockFile = false →
      fs'.lookup r.lockFile = fs.lookup r.lockFile) ∧
    (∀ (r : VcpkgRepo) (fs : FS), r.tagFile ≠ r.lockFile →
      (r.writeTag fs).lookup r.lockFile = fs.lookup r.lockFile) ∧
    (∀ (r : VcpkgRepo) (fs : FS), r.configFilePath ≠ r.lockFile →
      (r.writeConfig fs).lookup r.lockFile = fs.lookup r.lockFile) := by
  refine ⟨mkRepo_lockFile_preserve, ?_, ?_, ?_, ?_, ?_⟩
  · exact fun r fs => ⟨clean_eq_ok r fs, fun h => cleanFS_lookup_not_under r fs h⟩
  · exact fun r fs h => bootstrap_preserve r fs h
  · exact fun r fs fs' hok hpath hand => setupDependencies_preserve r hok hpath hand
  · intro r fs hne
    exact writeFile_lookup_ne fs _ _ (fun hx => hne hx.symm)
  · intro r fs hne
    exact writeFile_lookup_ne fs _ _ (fun hx => hne hx.symm)

/-- Closed instance of the amended C10: a full bootstrap and a writeTag
leave the lock path untouched. -/
theorem lockfile_reserved_only_witness :
    (sampleRepo.bootstrap sampleFS1).1.lookup sampleRepo.lockFile
        = sampleFS1.lookup sampleRepo.lockFile ∧
    (sampleRepo.writeTag sampleFS1).lookup sampleRepo.lockFile
        = sampleFS1.lookup sampleRepo.lockFile :=
  ⟨lockfile_reserved_only.2.2.1 sampleRepo sampleFS1 (by decide),
   lockfile_reserved_only.2.2.2.2.1 sampleRepo sampleFS1 (by decide)⟩
